import Mathlib

/-!
Verification of the satellite-tracking pipeline of `sat_app.py`.

The repository is a single Streamlit application.  Its computational core is
two functions:

* `get_tle_data` — fetches a raw TLE text block over HTTP, splits it into
  lines, and groups consecutive triples (name, line1, line2) into records,
  extracting the NORAD catalog identifier as `line1[2:7]`.  The network fetch
  is external I/O; we embed the pure part, taking the response text as input.

* `calculate_satellite_positions` — for a record and a list of instants, sets
  an `ephem.Observer` to the given latitude and longitude, builds an ephem
  satellite via `ephem.readtle`, and for each instant sets `observer.date`,
  calls `satellite.compute(observer)`, converts `satellite.sublat` and
  `satellite.sublong` from radians to degrees with `np.degrees`, and appends
  `{time, lat, lon}` to the result list.  A Python exception raised by any
  library call aborts the loop and propagates to the caller; we embed this
  fail-fast behaviour with `Except`.

The third-party `ephem` library is outside the repository; it is embedded as
abstract function parameters (`ephemReadtle`, `ephemComputeSub`) so that every
theorem states exactly what the glue code of the repository guarantees,
relative to the library calls it makes.  Instants are modelled as rationals
(seconds on a UTC timeline), angles as real numbers.
-/

/-- A parsed satellite record, as built by `get_tle_data`:
the Python dict with keys name, norad_id, line1, line2. -/
structure SatRecord where
  name : String
  norad_id : String
  line1 : String
  line2 : String
deriving DecidableEq, Repr

/-- An instant in time (UTC), `double`-precision seconds idealised as ℚ. -/
abbrev Instant := ℚ

/-- Python `s[a:b]` slicing for `0 ≤ a ≤ b` on a string: characters from
index `a` (inclusive) to `b` (exclusive), truncated at the end of the
string, never an error. -/
def pySlice (s : String) (a b : Nat) : String :=
  ((s.toList.drop a).take (b - a)).asString

/-- Python `str.strip()`: remove leading and trailing whitespace. -/
def pyStrip (s : String) : String :=
  ((s.toList.dropWhile Char.isWhitespace).reverse.dropWhile Char.isWhitespace).reverse.asString

/-- Python `str.split` with an explicit one-character separator, as in
`split('\n')`: every occurrence of the separator ends a field, empty fields
are kept, and `n` separators give `n + 1` fields. -/
def pySplitChar (sep : Char) : List Char → List Char → List String
  | [], acc => [acc.reverse.asString]
  | c :: cs, acc =>
      if c = sep then acc.reverse.asString :: pySplitChar sep cs []
      else pySplitChar sep cs (c :: acc)

/-- The grouping loop of `get_tle_data`:
`for i in range(0, len(tle_data), 3): if i + 2 < len(tle_data): append(...)`.
Each complete triple (name, line1, line2) becomes one record with
`norad_id = line1[2:7]`; a trailing group of one or two lines is skipped. -/
def parseTLEGroups : List String → List SatRecord
  | name :: l1 :: l2 :: rest =>
      ⟨pyStrip name, pySlice l1 2 7, l1, l2⟩ :: parseTLEGroups rest
  | _ => []

/-- Line splitting in `get_tle_data`: `response.text.strip().split('\n')`. -/
def tleLines (text : String) : List String :=
  pySplitChar '\n' (pyStrip text).toList []

/-- `get_tle_data`, with the HTTP response text as explicit input
(the fetch itself is external I/O outside the core). -/
def get_tle_data (response_text : String) : List SatRecord :=
  parseTLEGroups (tleLines response_text)

/-- Modelled from the spec: the TLE mod-10 checksum, absent from the source.
Each digit contributes its value, a minus sign contributes 1, every other
character contributes 0; the line is valid when its final character is a
digit equal to the sum over the preceding characters, mod 10.  Used only to
characterise an altered checksum digit; `get_tle_data` never computes it. -/
def tleCharValue (c : Char) : Nat :=
  if c.isDigit then c.toNat - 48 else if c = '-' then 1 else 0

/-- Modelled from the spec: whether a TLE line has a valid mod-10 checksum. -/
def specChecksumOk (line : String) : Bool :=
  match line.toList.getLast? with
  | none => false
  | some last =>
      last.isDigit && ((line.toList.dropLast.map tleCharValue).sum % 10 == last.toNat - 48)

/-- Errors raised by ephem library calls (Python exceptions). -/
structure EphemError where
  msg : String
deriving DecidableEq, Repr

/-- The `ephem.Observer` state as `calculate_satellite_positions` uses it:
latitude and longitude are set once from the arguments (the source stores
them via `str(...)`; the conversion is injective and the observer is only
ever consumed by the abstract library call, so we keep the numeric values),
and `date` is reassigned before every `compute` call. -/
structure Observer where
  lat : ℝ
  lon : ℝ
  date : Instant

/-- One output record of `calculate_satellite_positions`:
the Python dict `{time, lat, lon}`.  It has no further fields: no warning,
no staleness flag, no qualification of any kind. -/
structure SatPosition where
  time : Instant
  lat : ℝ
  lon : ℝ

/-- `np.degrees`: radians to degrees. -/
noncomputable def np_degrees (x : ℝ) : ℝ :=
  x * (180 / Real.pi)

/-- The per-instant loop of `calculate_satellite_positions`:
set `observer.date = time`, call `satellite.compute(observer)` (abstracted as
`computeSub`, returning the sublat/sublong pair in radians or raising), and
append `{time, np.degrees(sublat), np.degrees(sublong)}`.  An exception
aborts the loop and propagates. -/
noncomputable def track_loop (computeSub : Observer → Except EphemError (ℝ × ℝ))
    (observer_lat observer_lon : ℝ) : List Instant → Except EphemError (List SatPosition)
  | [] => .ok []
  | t :: ts =>
      match computeSub ⟨observer_lat, observer_lon, t⟩ with
      | .error e => .error e
      | .ok v =>
          match track_loop computeSub observer_lat observer_lon ts with
          | .error e => .error e
          | .ok rest => .ok (⟨t, np_degrees v.1, np_degrees v.2⟩ :: rest)

/-- `calculate_satellite_positions(sat, observer_lat, observer_lon, times)`.
`Sat` is the type of the opaque `ephem` satellite object; `ephemReadtle`
abstracts `ephem.readtle(name, line1, line2)` and `ephemComputeSub`
abstracts `satellite.compute(observer)` followed by reading
`satellite.sublat` and `satellite.sublong` (radians).  The observer date
starts at an arbitrary default (Python initialises it to the current time)
and is overwritten before every compute call. -/
noncomputable def calculate_satellite_positions {Sat : Type}
    (ephemReadtle : String → String → String → Except EphemError Sat)
    (ephemComputeSub : Sat → Observer → Except EphemError (ℝ × ℝ))
    (sat : SatRecord) (observer_lat observer_lon : ℝ) (times : List Instant) :
    Except EphemError (List SatPosition) :=
  match ephemReadtle sat.name sat.line1 sat.line2 with
  | .error e => .error e
  | .ok satellite =>
      track_loop (fun obs => ephemComputeSub satellite obs) observer_lat observer_lon times

/-! ### Concrete fixtures -/

/-- Display name of a reference satellite (ISS). -/
def issName : String := "ISS (ZARYA)"

/-- A reference TLE line 1 with a correct mod-10 checksum (final digit 7). -/
def issLine1 : String :=
  "1 25544U 98067A   08264.51782528 -.00002182  00000-0 -11606-4 0  2927"

/-- `issLine1` with its checksum digit altered from 7 to 3 (mismatched). -/
def issLine1Altered : String :=
  "1 25544U 98067A   08264.51782528 -.00002182  00000-0 -11606-4 0  2923"

/-- A reference TLE line 2 with a correct mod-10 checksum. -/
def issLine2 : String :=
  "2 25544  51.6416 247.4627 0006703 130.5360 325.0288 15.72125391563537"

/-- The reference record as `get_tle_data` parses it. -/
def issRecord : SatRecord := ⟨issName, "25544", issLine1, issLine2⟩

/-- A concrete `ephem.readtle` behaviour for instantiating the abstract
library: always succeeds, returning an opaque satellite handle. -/
def unitReadtle : String → String → String → Except EphemError Unit :=
  fun _ _ _ => .ok ()

/-- A concrete library behaviour: `compute` always succeeds with
sublat = sublong = 0 radians. -/
def zeroComputeSub : Unit → Observer → Except EphemError (ℝ × ℝ) :=
  fun _ _ => .ok (0, 0)

/-- A concrete library behaviour: `compute` succeeds with sublat = 0 and
sublong = 4 radians (a value outside the normalized band [−π, π)). -/
def fourComputeSub : Unit → Observer → Except EphemError (ℝ × ℝ) :=
  fun _ _ => .ok (0, 4)

/-- A concrete library behaviour: `compute` always raises. -/
def errComputeSub : Unit → Observer → Except EphemError (ℝ × ℝ) :=
  fun _ _ => .error ⟨"ephem compute failed"⟩

/-! ### General lemmas about the parsing loop -/

theorem parseTLEGroups_length (ls : List String) :
    (parseTLEGroups ls).length = ls.length / 3 := by
  match ls with
  | [] => rfl
  | [a] => simp [parseTLEGroups]
  | [a, b] => simp [parseTLEGroups]
  | a :: b :: c :: rest =>
      have ih := parseTLEGroups_length rest
      simp only [parseTLEGroups, List.length_cons]
      omega

theorem parseTLEGroups_get (ls : List String) (j : Nat) (h : 3 * j + 2 < ls.length) :
    (parseTLEGroups ls).get? j =
      some ⟨pyStrip (ls.getD (3 * j) ""), pySlice (ls.getD (3 * j + 1) "") 2 7,
            ls.getD (3 * j + 1) "", ls.getD (3 * j + 2) ""⟩ := by
  match ls, j with
  | [], j => simp at h
  | [a], j => simp at h
  | [a, b], j => simp at h
  | a :: b :: c :: rest, 0 => simp [parseTLEGroups]
  | a :: b :: c :: rest, j + 1 =>
      have h3 : 3 * j + 2 < rest.length := by simp at h; omega
      have ih := parseTLEGroups_get rest j h3
      have e1 : 3 * (j + 1) = 3 * j + 1 + 1 + 1 := by omega
      have e2 : 3 * (j + 1) + 1 = 3 * j + 2 + 1 + 1 := by omega
      have e3 : 3 * (j + 1) + 2 = 3 * j + 3 + 1 + 1 := by omega
      have e4 : 3 * j + 3 = 3 * j + 2 + 1 := by omega
      simp only [parseTLEGroups, List.get?_cons_succ, e1, e2, e3, e4, List.getD_cons_succ]
      exact ih

theorem mem_parseTLEGroups (ls : List String) (rec : SatRecord)
    (h : rec ∈ parseTLEGroups ls) : rec.norad_id = pySlice rec.line1 2 7 := by
  match ls with
  | [] => simp [parseTLEGroups] at h
  | [a] => simp [parseTLEGroups] at h
  | [a, b] => simp [parseTLEGroups] at h
  | a :: b :: c :: rest =>
      simp only [parseTLEGroups, List.mem_cons] at h
      rcases h with h | h
      · subst h; rfl
      · exact mem_parseTLEGroups rest rec h

theorem pySlice_length (s : String) (hs : 7 ≤ s.length) :
    (pySlice s 2 7).length = 5 := by
  have hl : s.toList.length = s.length := rfl
  simp only [pySlice, List.length_asString, List.length_take, List.length_drop]
  omega

/-! ### Claim C5 — checksum validation -/

/-- C5 counterexample.  The claim states that a TLE whose line 1 carries an
altered (mismatched) mod-10 checksum digit fails to parse with a
`ChecksumError`.  In the code, `get_tle_data` performs no checksum
computation at all: the block whose line 1 has its checksum digit altered
from 7 (correct) to 3 (mismatched, per the spec checksum rule) parses into a
full record containing the altered line verbatim, with no error of any
kind. -/
theorem c5_counterexample_altered_checksum_parses :
    specChecksumOk issLine1 = true ∧
    specChecksumOk issLine1Altered = false ∧
    get_tle_data (issName ++ "\n" ++ issLine1Altered ++ "\n" ++ issLine2) =
      [⟨issName, "25544", issLine1Altered, issLine2⟩] :=
  ⟨by decide, by decide, by decide⟩

/-- C5 amended: parsing performs no checksum validation.  Every complete
three-line group is turned into a record unconditionally — the record is
built from the raw lines by the fixed grouping rule, independent of whether
any checksum digit matches; no `ChecksumError` (or any error) exists in this
code path. -/
theorem c5_amended_parse_is_unconditional (name l1 l2 : String) (rest : List String) :
    parseTLEGroups (name :: l1 :: l2 :: rest) =
      ⟨pyStrip name, pySlice l1 2 7, l1, l2⟩ :: parseTLEGroups rest :=
  rfl

/-! ### Claim C6 — catalog identifier extraction -/

/-- C6: every record produced by `get_tle_data` has its catalog identifier
equal to the `line1[2:7]` slice of its own line 1 (characters 3 to 7,
1-indexed), and that slice is exactly 5 characters long whenever line 1 has
at least 7 characters; the extraction rule is applied unconditionally to
every parsed record. -/
theorem c6_norad_id_is_line1_slice (text : String) (rec : SatRecord)
    (h : rec ∈ get_tle_data text) :
    rec.norad_id = pySlice rec.line1 2 7 ∧
    (7 ≤ rec.line1.length → rec.norad_id.length = 5) := by
  have h1 := mem_parseTLEGroups (tleLines text) rec h
  refine ⟨h1, fun hs => ?_⟩
  rw [h1]
  exact pySlice_length rec.line1 hs

/-- C6 witness: the reference record parsed from a concrete block satisfies
the extraction contract. -/
theorem c6_witness :
    issRecord ∈ get_tle_data (issName ++ "\n" ++ issLine1 ++ "\n" ++ issLine2) ∧
    (issRecord.norad_id = pySlice issRecord.line1 2 7 ∧
      (7 ≤ issRecord.line1.length → issRecord.norad_id.length = 5)) :=
  ⟨by decide, c6_norad_id_is_line1_slice (issName ++ "\n" ++ issLine1 ++ "\n" ++ issLine2)
    issRecord (by decide)⟩

/-! ### Claim C10 — grouping of raw text into records -/

/-- C10: for every raw text block, `get_tle_data` returns exactly
`floor(number_of_lines / 3)` records — one per complete (name, line1, line2)
triple taken in order, the j-th record being built from lines 3j, 3j+1,
3j+2 — and a trailing incomplete group of one or two lines is silently
dropped (the function is total: it returns a plain list and raises no
error). -/
theorem c10_one_record_per_complete_triple (text : String) :
    (get_tle_data text).length = (tleLines text).length / 3 ∧
    ∀ j, 3 * j + 2 < (tleLines text).length →
      (get_tle_data text).get? j =
        some ⟨pyStrip ((tleLines text).getD (3 * j) ""),
              pySlice ((tleLines text).getD (3 * j + 1) "") 2 7,
              (tleLines text).getD (3 * j + 1) "",
              (tleLines text).getD (3 * j + 2) ""⟩ :=
  ⟨parseTLEGroups_length _, fun j hj => parseTLEGroups_get _ j hj⟩

/-- C10 witness: a four-line block (one complete triple plus one leftover
line) yields exactly one record, built from the first three lines. -/
theorem c10_witness :
    ((get_tle_data "a\nb\nc\nd").length = (tleLines "a\nb\nc\nd").length / 3) ∧
    (3 * 0 + 2 < (tleLines "a\nb\nc\nd").length) ∧
    (get_tle_data "a\nb\nc\nd").get? 0 =
      some ⟨pyStrip ((tleLines "a\nb\nc\nd").getD (3 * 0) ""),
            pySlice ((tleLines "a\nb\nc\nd").getD (3 * 0 + 1) "") 2 7,
            (tleLines "a\nb\nc\nd").getD (3 * 0 + 1) "",
            (tleLines "a\nb\nc\nd").getD (3 * 0 + 2) ""⟩ :=
  ⟨(c10_one_record_per_complete_triple "a\nb\nc\nd").1, by decide,
    (c10_one_record_per_complete_triple "a\nb\nc\nd").2 0 (by decide)⟩

/-! ### General lemmas about the tracking loop -/

theorem track_loop_ok_of_all_ok (c : Observer → Except EphemError (ℝ × ℝ))
    (olat olon : ℝ) (g : Instant → ℝ × ℝ) (ts : List Instant)
    (h : ∀ t ∈ ts, c ⟨olat, olon, t⟩ = .ok (g t)) :
    track_loop c olat olon ts =
      .ok (ts.map fun t => ⟨t, np_degrees (g t).1, np_degrees (g t).2⟩) := by
  induction ts with
  | nil => rfl
  | cons t ts ih =>
      have ht : c ⟨olat, olon, t⟩ = .ok (g t) := h t (List.mem_cons_self t ts)
      have hts := ih (fun u hu => h u (List.mem_cons_of_mem t hu))
      simp [track_loop, ht, hts]

theorem track_loop_ok_inv (c : Observer → Except EphemError (ℝ × ℝ))
    (olat olon : ℝ) (ts : List Instant) (l : List SatPosition)
    (h : track_loop c olat olon ts = .ok l) :
    l.length = ts.length ∧
    ∀ i (h1 : i < ts.length) (h2 : i < l.length),
      (l.get ⟨i, h2⟩).time = ts.get ⟨i, h1⟩ := by
  induction ts generalizing l with
  | nil =>
      simp only [track_loop, Except.ok.injEq] at h
      subst h
      exact ⟨rfl, fun i h1 h2 => by simp at h1⟩
  | cons t ts ih =>
      simp only [track_loop] at h
      cases hc : c ⟨olat, olon, t⟩ with
      | error e => rw [hc] at h; simp at h
      | ok v =>
          rw [hc] at h
          cases ht : track_loop c olat olon ts with
          | error e => rw [ht] at h; simp at h
          | ok rest =>
              rw [ht] at h
              simp only [Except.ok.injEq] at h
              subst h
              rcases ih rest ht with ⟨hlen, hidx⟩
              refine ⟨by simp [hlen], fun i h1 h2 => ?_⟩
              cases i with
              | zero => rfl
              | succ i => exact hidx i (by simpa using h1) (by simpa using h2)

theorem track_loop_ok_mem (c : Observer → Except EphemError (ℝ × ℝ))
    (olat olon : ℝ) (ts : List Instant) (l : List SatPosition) (p : SatPosition)
    (h : track_loop c olat olon ts = .ok l) (hp : p ∈ l) :
    ∃ t v, c ⟨olat, olon, t⟩ = .ok v ∧ p = ⟨t, np_degrees v.1, np_degrees v.2⟩ := by
  induction ts generalizing l with
  | nil =>
      simp only [track_loop, Except.ok.injEq] at h
      subst h
      simp at hp
  | cons t ts ih =>
      simp only [track_loop] at h
      cases hc : c ⟨olat, olon, t⟩ with
      | error e => rw [hc] at h; simp at h
      | ok v =>
          rw [hc] at h
          cases ht : track_loop c olat olon ts with
          | error e => rw [ht] at h; simp at h
          | ok rest =>
              rw [ht] at h
              simp only [Except.ok.injEq] at h
              subst h
              rcases List.mem_cons.mp hp with hp | hp
              · exact ⟨t, v, hc, hp⟩
              · exact ih rest ht hp

theorem track_loop_first_error (c : Observer → Except EphemError (ℝ × ℝ))
    (olat olon : ℝ) (ts1 ts2 : List Instant) (t : Instant) (e : EphemError)
    (h1 : ∀ u ∈ ts1, ∃ v, c ⟨olat, olon, u⟩ = .ok v)
    (he : c ⟨olat, olon, t⟩ = .error e) :
    track_loop c olat olon (ts1 ++ t :: ts2) = .error e := by
  induction ts1 with
  | nil => simp [track_loop, he]
  | cons u ts1 ih =>
      rcases h1 u (List.mem_cons_self u ts1) with ⟨v, hv⟩
      have ih2 := ih (fun w hw => h1 w (List.mem_cons_of_mem u hw))
      simp [track_loop, hv, ih2]

theorem track_loop_observer_irrelevant (c : Observer → Except EphemError (ℝ × ℝ))
    (lat1 lon1 lat2 lon2 : ℝ)
    (hobs : ∀ o o' : Observer, o.date = o'.date → c o = c o') (ts : List Instant) :
    track_loop c lat1 lon1 ts = track_loop c lat2 lon2 ts := by
  induction ts with
  | nil => rfl
  | cons t ts ih =>
      have h := hobs ⟨lat1, lon1, t⟩ ⟨lat2, lon2, t⟩ rfl
      simp only [track_loop, h, ih]

/-! ### Lemmas about the degree conversion -/

theorem np_degrees_le_np_degrees {x b : ℝ} (h : x ≤ b) : np_degrees x ≤ np_degrees b :=
  mul_le_mul_of_nonneg_right h (le_of_lt (div_pos (by norm_num) Real.pi_pos))

theorem np_degrees_lt_np_degrees {x b : ℝ} (h : x < b) : np_degrees x < np_degrees b :=
  mul_lt_mul_of_pos_right h (div_pos (by norm_num) Real.pi_pos)

theorem np_degrees_pi : np_degrees Real.pi = 180 := by
  rw [np_degrees, mul_comm]
  exact div_mul_cancel₀ 180 Real.pi_ne_zero

theorem np_degrees_neg (x : ℝ) : np_degrees (-x) = -np_degrees x := by
  rw [np_degrees, np_degrees, neg_mul]

theorem np_degrees_half_pi : np_degrees (Real.pi / 2) = 90 := by
  have hpi := Real.pi_ne_zero
  rw [np_degrees]
  field_simp
  ring

/-! ### Claim C1 — one point per instant, in order -/

/-- C1: for every element set and every list of N instants with N between 1
and 50, when `ephem.readtle` succeeds and the library computes a
sublat/sublong pair `g t` at each requested instant `t`, the track operation
returns exactly the list mapping each instant, in input order, to its
projected geographic point — in particular exactly N points, the i-th one
built from the i-th instant. -/
theorem c1_track_one_point_per_instant {Sat : Type}
    (ephemReadtle : String → String → String → Except EphemError Sat)
    (ephemComputeSub : Sat → Observer → Except EphemError (ℝ × ℝ))
    (sat : SatRecord) (olat olon : ℝ) (times : List Instant) (s : Sat)
    (g : Instant → ℝ × ℝ)
    (hN1 : 1 ≤ times.length) (hN50 : times.length ≤ 50)
    (hr : ephemReadtle sat.name sat.line1 sat.line2 = .ok s)
    (hc : ∀ t ∈ times, ephemComputeSub s ⟨olat, olon, t⟩ = .ok (g t)) :
    calculate_satellite_positions ephemReadtle ephemComputeSub sat olat olon times =
      .ok (times.map fun t => ⟨t, np_degrees (g t).1, np_degrees (g t).2⟩) ∧
    (times.map fun t => (⟨t, np_degrees (g t).1, np_degrees (g t).2⟩ : SatPosition)).length
      = times.length := by
  refine ⟨?_, by simp⟩
  simp only [calculate_satellite_positions, hr]
  exact track_loop_ok_of_all_ok _ olat olon g times hc

/-- C1 witness: a concrete one-instant run with an always-succeeding
library. -/
theorem c1_witness :
    (1 ≤ ([0] : List Instant).length) ∧ (([0] : List Instant).length ≤ 50) ∧
    (calculate_satellite_positions unitReadtle zeroComputeSub issRecord 0 0 [0] =
        .ok (([0] : List Instant).map fun t => ⟨t, np_degrees 0, np_degrees 0⟩) ∧
      (([0] : List Instant).map fun t =>
        (⟨t, np_degrees 0, np_degrees 0⟩ : SatPosition)).length = ([0] : List Instant).length) :=
  ⟨by decide, by decide,
    c1_track_one_point_per_instant unitReadtle zeroComputeSub issRecord 0 0 [0] ()
      (fun _ => (0, 0)) (by decide) (by decide) rfl (fun t ht => rfl)⟩

/-! ### Claim C9 — output times echo input instants -/

/-- C9: for every list of instants (of any length, empty included), whenever
the pipeline returns a result list, that list has one entry per instant and
the time field of the i-th entry is exactly the i-th input instant,
unchanged. -/
theorem c9_output_times_echo_input {Sat : Type}
    (ephemReadtle : String → String → String → Except EphemError Sat)
    (ephemComputeSub : Sat → Observer → Except EphemError (ℝ × ℝ))
    (sat : SatRecord) (olat olon : ℝ) (times : List Instant) (l : List SatPosition)
    (hok : calculate_satellite_positions ephemReadtle ephemComputeSub sat olat olon times
      = .ok l) :
    l.length = times.length ∧
    ∀ i (h1 : i < times.length) (h2 : i < l.length),
      (l.get ⟨i, h2⟩).time = times.get ⟨i, h1⟩ := by
  simp only [calculate_satellite_positions] at hok
  cases hr : ephemReadtle sat.name sat.line1 sat.line2 with
  | error e => rw [hr] at hok; simp at hok
  | ok s =>
      rw [hr] at hok
      exact track_loop_ok_inv _ olat olon times l hok

/-- C9 witness: a concrete successful run echoes its single instant back. -/
theorem c9_witness :
    (calculate_satellite_positions unitReadtle zeroComputeSub issRecord 0 0 [7] =
      .ok [⟨7, np_degrees 0, np_degrees 0⟩]) ∧
    (([⟨7, np_degrees 0, np_degrees 0⟩] : List SatPosition).length
        = ([7] : List Instant).length ∧
      ∀ i (h1 : i < ([7] : List Instant).length)
        (h2 : i < ([⟨7, np_degrees 0, np_degrees 0⟩] : List SatPosition).length),
        (([⟨7, np_degrees 0, np_degrees 0⟩] : List SatPosition).get ⟨i, h2⟩).time
          = ([7] : List Instant).get ⟨i, h1⟩) :=
  ⟨rfl, c9_output_times_echo_input unitReadtle zeroComputeSub issRecord 0 0 [7]
    [⟨7, np_degrees 0, np_degrees 0⟩] rfl⟩

/-! ### Claim C7 — fail-fast on the first failing instant -/

/-- C7: if the library computation fails at some instant `t` while
succeeding at every earlier instant, the pipeline run over any list that has
`t` as its first failing instant returns exactly that error — whatever
instants follow `t` — so it never skips a bad instant, never substitutes a
default position, and never returns a partial track as a normal result. -/
theorem c7_fail_fast_first_error {Sat : Type}
    (ephemReadtle : String → String → String → Except EphemError Sat)
    (ephemComputeSub : Sat → Observer → Except EphemError (ℝ × ℝ))
    (sat : SatRecord) (olat olon : ℝ) (ts1 ts2 : List Instant) (t : Instant)
    (e : EphemError) (s : Sat)
    (hr : ephemReadtle sat.name sat.line1 sat.line2 = .ok s)
    (hok : ∀ u ∈ ts1, ∃ v, ephemComputeSub s ⟨olat, olon, u⟩ = .ok v)
    (he : ephemComputeSub s ⟨olat, olon, t⟩ = .error e) :
    calculate_satellite_positions ephemReadtle ephemComputeSub sat olat olon
      (ts1 ++ t :: ts2) = .error e := by
  simp only [calculate_satellite_positions, hr]
  exact track_loop_first_error _ olat olon ts1 ts2 t e hok he

/-- C7 witness: a run whose first instant fails surfaces the error even
though further instants were requested. -/
theorem c7_witness :
    (errComputeSub () ⟨0, 0, 0⟩ = .error ⟨"ephem compute failed"⟩) ∧
    calculate_satellite_positions unitReadtle errComputeSub issRecord 0 0
      (([] : List Instant) ++ (0 : Instant) :: [1, 2]) = .error ⟨"ephem compute failed"⟩ :=
  ⟨rfl, c7_fail_fast_first_error unitReadtle errComputeSub issRecord 0 0 [] [1, 2] 0
    ⟨"ephem compute failed"⟩ () rfl (fun u hu => absurd hu (List.not_mem_nil u)) rfl⟩

/-! ### Claim C3 — observer location does not affect computed points -/

/-- C3: two-run noninterference in the observer coordinates.  The pipeline
uses `observer_lat` and `observer_lon` only to populate the observer record
passed to the library; provided the library sub-satellite computation
depends only on the observer date (its documented behaviour — the
sub-satellite point is a function of the satellite state at the date, not of
the observer site), two runs differing only in observer coordinates return
identical output, latitudes and longitudes included. -/
theorem c3_observer_noninterference {Sat : Type}
    (ephemReadtle : String → String → String → Except EphemError Sat)
    (ephemComputeSub : Sat → Observer → Except EphemError (ℝ × ℝ))
    (hobs : ∀ (s : Sat) (o o' : Observer), o.date = o'.date →
      ephemComputeSub s o = ephemComputeSub s o')
    (sat : SatRecord) (lat1 lon1 lat2 lon2 : ℝ) (times : List Instant) :
    calculate_satellite_positions ephemReadtle ephemComputeSub sat lat1 lon1 times =
      calculate_satellite_positions ephemReadtle ephemComputeSub sat lat2 lon2 times := by
  simp only [calculate_satellite_positions]
  cases hr : ephemReadtle sat.name sat.line1 sat.line2 with
  | error e => rfl
  | ok s =>
      exact track_loop_observer_irrelevant _ lat1 lon1 lat2 lon2
        (fun o o' h => hobs s o o' h) times

/-- C3 witness: two concrete runs with different observer coordinates agree. -/
theorem c3_witness :
    (∀ (s : Unit) (o o' : Observer), o.date = o'.date →
      zeroComputeSub s o = zeroComputeSub s o') ∧
    calculate_satellite_positions unitReadtle zeroComputeSub issRecord 28 91 [0, 60] =
      calculate_satellite_positions unitReadtle zeroComputeSub issRecord (-33) 151 [0, 60] :=
  ⟨fun s o o' h => rfl,
    c3_observer_noninterference unitReadtle zeroComputeSub (fun s o o' h => rfl)
      issRecord 28 91 (-33) 151 [0, 60]⟩

/-! ### Claim C4 — determinism of the pipeline -/

/-- C4: the pipeline is deterministic — two calls with identical inputs
(same element record, same observer coordinates, same instants, same library
behaviour) yield identical outputs.  The embedding is a pure function
because the source reads no ambient state: it allocates a fresh observer and
a fresh satellite object per call, and the library calls are deterministic
functions of their arguments (spec 4.2), so equal inputs give one and the
same result. -/
theorem c4_pipeline_deterministic {Sat : Type}
    (ephemReadtle : String → String → String → Except EphemError Sat)
    (ephemComputeSub : Sat → Observer → Except EphemError (ℝ × ℝ))
    (sat : SatRecord) (olat olon : ℝ) (times : List Instant) :
    calculate_satellite_positions ephemReadtle ephemComputeSub sat olat olon times =
      calculate_satellite_positions ephemReadtle ephemComputeSub sat olat olon times :=
  rfl

/-! ### Claim C2 — output coordinate ranges -/

/-- C2 counterexample.  The claim states the projected longitude always lies
in [−180, 180) and latitude in [−90, 90].  The code applies `np.degrees` to
the library sublat/sublong with no normalization or clamping whatever, so
the bound is not enforced by the program: a run in which the library reports
sublong = 4 radians produces the longitude `np_degrees 4`, which exceeds
180 degrees. -/
theorem c2_counterexample_longitude_out_of_range :
    calculate_satellite_positions unitReadtle fourComputeSub issRecord 0 0 [0] =
      .ok [⟨0, np_degrees 0, np_degrees 4⟩] ∧
    180 < np_degrees 4 := by
  refine ⟨rfl, ?_⟩
  have hpi : Real.pi < 4 := lt_trans Real.pi_lt_d2 (by norm_num)
  have hpos := Real.pi_pos
  rw [np_degrees]
  rw [show (4 : ℝ) * (180 / Real.pi) = 720 / Real.pi by ring]
  rw [lt_div_iff₀ hpos]
  nlinarith

/-- C2 amended: the code performs no normalization, so the coordinate ranges
hold exactly when the library already reports normalized radians.  Whenever
a run succeeds and every sublat/sublong pair the library returns lies in
[−π/2, π/2] × [−π, π), every output point has latitude in [−90, 90] and
longitude in [−180, 180). -/
theorem c2_amended_ranges_from_library_ranges {Sat : Type}
    (ephemReadtle : String → String → String → Except EphemError Sat)
    (ephemComputeSub : Sat → Observer → Except EphemError (ℝ × ℝ))
    (sat : SatRecord) (olat olon : ℝ) (times : List Instant) (l : List SatPosition)
    (hok : calculate_satellite_positions ephemReadtle ephemComputeSub sat olat olon times
      = .ok l)
    (hlib : ∀ (s : Sat) (o : Observer) (v : ℝ × ℝ), ephemComputeSub s o = .ok v →
      -(Real.pi / 2) ≤ v.1 ∧ v.1 ≤ Real.pi / 2 ∧ -Real.pi ≤ v.2 ∧ v.2 < Real.pi) :
    ∀ p ∈ l, -90 ≤ p.lat ∧ p.lat ≤ 90 ∧ -180 ≤ p.lon ∧ p.lon < 180 := by
  intro p hp
  simp only [calculate_satellite_positions] at hok
  cases hr : ephemReadtle sat.name sat.line1 sat.line2 with
  | error e => rw [hr] at hok; simp at hok
  | ok s =>
      rw [hr] at hok
      obtain ⟨t, v, hv, hpeq⟩ := track_loop_ok_mem _ olat olon times l p hok hp
      obtain ⟨hb1, hb2, hb3, hb4⟩ := hlib s ⟨olat, olon, t⟩ v hv
      subst hpeq
      refine ⟨?_, ?_, ?_, ?_⟩
      · have := np_degrees_le_np_degrees hb1
        rwa [np_degrees_neg, np_degrees_half_pi] at this
      · have := np_degrees_le_np_degrees hb2
        rwa [np_degrees_half_pi] at this
      · have := np_degrees_le_np_degrees hb3
        rwa [np_degrees_neg, np_degrees_pi] at this
      · have := np_degrees_lt_np_degrees hb4
        rwa [np_degrees_pi] at this

/-- C2 amended witness: a concrete run with a library reporting normalized
radians has all outputs inside the claimed ranges. -/
theorem c2_witness :
    (calculate_satellite_positions unitReadtle zeroComputeSub issRecord 0 0 [0] =
      .ok [⟨0, np_degrees 0, np_degrees 0⟩]) ∧
    (∀ (s : Unit) (o : Observer) (v : ℝ × ℝ), zeroComputeSub s o = .ok v →
      -(Real.pi / 2) ≤ v.1 ∧ v.1 ≤ Real.pi / 2 ∧ -Real.pi ≤ v.2 ∧ v.2 < Real.pi) ∧
    ∀ p ∈ ([⟨0, np_degrees 0, np_degrees 0⟩] : List SatPosition),
      -90 ≤ p.lat ∧ p.lat ≤ 90 ∧ -180 ≤ p.lon ∧ p.lon < 180 := by
  have hlib : ∀ (s : Unit) (o : Observer) (v : ℝ × ℝ), zeroComputeSub s o = .ok v →
      -(Real.pi / 2) ≤ v.1 ∧ v.1 ≤ Real.pi / 2 ∧ -Real.pi ≤ v.2 ∧ v.2 < Real.pi := by
    intro s o v hv
    have hv2 : v = ((0 : ℝ), (0 : ℝ)) := by
      simpa [zeroComputeSub] using hv.symm
    subst hv2
    have hpos := Real.pi_pos
    refine ⟨by simp; linarith, by simp; linarith, by simp; linarith, by simp; linarith⟩
  exact ⟨rfl, hlib,
    c2_amended_ranges_from_library_ranges unitReadtle zeroComputeSub issRecord 0 0 [0]
      [⟨0, np_degrees 0, np_degrees 0⟩] rfl hlib⟩

/-! ### Claim C8 — staleness of elements -/

/-- C8 counterexample.  The claim states that propagating at an instant more
than 400 days past the element epoch yields either a result carrying a
`StaleElementsWarning` or a `DegenerateOrbitError`, never a plain
unqualified position.  The code computes no elapsed time and has no warning
mechanism — the output record type is exactly {time, lat, lon} — so a run
in which the library succeeds at epoch + 400 days + 1 second (epoch taken as
instant 0) returns a plain, unqualified position record. -/
theorem c8_counterexample_stale_instant_plain_position :
    calculate_satellite_positions unitReadtle zeroComputeSub issRecord 0 0
      [400 * 86400 + 1] = .ok [⟨400 * 86400 + 1, np_degrees 0, np_degrees 0⟩] :=
  rfl

/-- C8 amended: the code applies no staleness threshold.  For any instant
`t`, however far beyond the element epoch (here: more than 400 days), if the
library computes a sublat/sublong pair at `t` then the pipeline returns the
plain {time, lat, lon} record for `t`, identical in form to a fresh-epoch
result, with no warning attached and no error raised. -/
theorem c8_amended_no_staleness_check {Sat : Type}
    (ephemReadtle : String → String → String → Except EphemError Sat)
    (ephemComputeSub : Sat → Observer → Except EphemError (ℝ × ℝ))
    (sat : SatRecord) (olat olon : ℝ) (epoch t : Instant) (v : ℝ × ℝ) (s : Sat)
    (hfar : epoch + 400 * 86400 < t)
    (hr : ephemReadtle sat.name sat.line1 sat.line2 = .ok s)
    (hc : ephemComputeSub s ⟨olat, olon, t⟩ = .ok v) :
    calculate_satellite_positions ephemReadtle ephemComputeSub sat olat olon [t] =
      .ok [⟨t, np_degrees v.1, np_degrees v.2⟩] := by
  simp [calculate_satellite_positions, hr, track_loop, hc]

/-- C8 amended witness: a concrete run 400 days past the epoch returns the
plain record. -/
theorem c8_witness :
    ((0 : Instant) + 400 * 86400 < 400 * 86400 + 1) ∧
    calculate_satellite_positions unitReadtle zeroComputeSub issRecord 0 0
      [400 * 86400 + 1] = .ok [⟨400 * 86400 + 1, np_degrees 0, np_degrees 0⟩] :=
  ⟨by norm_num,
    c8_amended_no_staleness_check unitReadtle zeroComputeSub issRecord 0 0 0
      (400 * 86400 + 1) (0, 0) () (by norm_num) rfl rfl⟩
